import Mathlib

/-!
Verification of the INMET fetch pipeline (`fetch_inmet.py`) of the
`inmet-slp-dashboard` repository.

The development shallowly embeds the pure content of the pipeline:

* `slugify` and the column-name normalizer `normName` (python `slugify`
  and the inner `norm` of `normalize_columns`);
* the CSV decoding cascade `try_read_csv`;
* the schema normalizer `normalize_columns`;
* the combiner of `main` (concat, dropna on `DATA`, sort by `DATA`,
  drop duplicates on `DATA`);
* the control flow of `download_and_extract_for_year` and `main`'s
  year loop, with the network and the external libraries modelled as an
  explicit environment of fallible functions.

pandas' `sort_values` is invoked with its default `kind="quicksort"`,
whose order among rows with equal keys is unspecified; the development
therefore treats the sort relationally (`IsSortOf`): any permutation of
the input that is non-decreasing on the key is a possible behaviour.
-/

/-! ## Characters and the slug machinery -/

/-- ASCII alphanumeric: the character class `[a-zA-Z0-9]` of the regex in
`slugify`. -/
def isAlnumAscii (c : Char) : Bool :=
  (97 ≤ c.toNat && c.toNat ≤ 122) || (65 ≤ c.toNat && c.toNat ≤ 90) ||
    (48 ≤ c.toNat && c.toNat ≤ 57)

/-- Upper-case ASCII letter or digit: the class `[A-Z0-9]` of the regex in
`normalize_columns.norm`. -/
def isUpperDigitAscii (c : Char) : Bool :=
  (65 ≤ c.toNat && c.toNat ≤ 90) || (48 ≤ c.toNat && c.toNat ≤ 57)

/-- `str.lower()` restricted to ASCII, which is all `slugify` ever feeds it
(the ASCII encode precedes it). -/
def toLowerAscii (c : Char) : Char :=
  if 65 ≤ c.toNat && c.toNat ≤ 90 then Char.ofNat (c.toNat + 32) else c

/-- `str.upper()` restricted to ASCII, which is all `normalize_columns.norm`
ever feeds it. -/
def toUpperAscii (c : Char) : Char :=
  if 97 ≤ c.toNat && c.toNat ≤ 122 then Char.ofNat (c.toNat - 32) else c

/-- Models `unicodedata.normalize("NFKD", ·).encode("ascii", "ignore")` one
character at a time.  ASCII characters are fixed points (NFKD is the
identity on them and the ASCII encoder keeps them).  Accented Latin
letters decompose into their base letter followed by combining marks and
the encoder drops the marks.  A character with no decomposition into
ASCII-representable parts (such as the euro sign) is dropped entirely.
The table lists the non-ASCII characters exercised in this development. -/
def foldChar (c : Char) : List Char :=
  if c.toNat < 128 then [c]
  else if c = 'ã' then ['a']
  else if c = 'Ã' then ['A']
  else if c = 'á' then ['a']
  else if c = 'é' then ['e']
  else if c = 'í' then ['i']
  else if c = 'ó' then ['o']
  else if c = 'ú' then ['u']
  else if c = 'ç' then ['c']
  else if c = 'Ç' then ['C']
  else []

/-- The NFKD + ASCII-ignore fold on a whole string. -/
def asciiFold (l : List Char) : List Char :=
  (l.map foldChar).flatten

/-- One pass of `re.sub(r"[^...]+", "_", text)`: every maximal run of
characters not satisfying `keep` is replaced by a single underscore.
`inRun` records whether the previous character was part of such a run. -/
def collapseGo (keep : Char → Bool) (inRun : Bool) : List Char → List Char
  | [] => []
  | c :: rest =>
    if keep c then c :: collapseGo keep false rest
    else if inRun then collapseGo keep true rest
    else '_' :: collapseGo keep true rest

/-- `str.strip("_")`: removes every leading and trailing underscore. -/
def dropEnds (l : List Char) : List Char :=
  ((l.dropWhile (fun c => c == '_')).reverse.dropWhile (fun c => c == '_')).reverse

/-- `slugify` from `fetch_inmet.py` on the character list: NFKD fold to
ASCII, collapse non-alphanumeric runs to single underscores, strip
underscores at the ends, lower-case. -/
def slugChars (l : List Char) : List Char :=
  (dropEnds (collapseGo isAlnumAscii false (asciiFold l))).map toLowerAscii

/-- `slugify` from `fetch_inmet.py`. -/
def slugify (s : String) : String :=
  String.mk (slugChars s.data)

/-- The inner `norm` of `normalize_columns`: NFKD fold to ASCII,
upper-case, collapse runs of `[^A-Z0-9]` to single underscores, strip
underscores at the ends. -/
def normName (s : String) : String :=
  String.mk (dropEnds (collapseGo isUpperDigitAscii false ((asciiFold s.data).map toUpperAscii)))

example : slugify "São Luiz do Paraitinga" = "sao_luiz_do_paraitinga" := by decide

example : slugify "SAO LUIZ DO PARAITINGA" = "sao_luiz_do_paraitinga" := by decide

example : normName "Temperatura Média (°C)" = "TEMPERATURA_MEDIA_C" := by decide

example : slugify "a€b" = "ab" := by decide

/-! ## Substring tests (python `in` and `startswith`) -/

/-- `pat` is a prefix of `s` (python `s.startswith(pat)` seen from the
pattern side). -/
def startsWithL : List Char → List Char → Bool
  | [], _ => true
  | _ :: _, [] => false
  | a :: as, b :: bs => a == b && startsWithL as bs

/-- `pat` occurs contiguously inside `s` (python `pat in s`). -/
def subStr (pat : List Char) : List Char → Bool
  | [] => pat.isEmpty
  | c :: rest => startsWithL pat (c :: rest) || subStr pat rest

/-- Python `sub in s` on strings. -/
def containsSub (s sub : String) : Bool :=
  subStr sub.data s.data

/-- Python `s.startswith(p)` on strings. -/
def startsWithStr (p s : String) : Bool :=
  startsWithL p.data s.data

example : containsSub "TEMPERATURA_MAXIMA" "TEMPERATURA_MAX" = true := by decide

example : containsSub "TEMPERATURA_MAXIMA" "AR" = false := by decide

example : startsWithStr "HORA" "HORA_UTC" = true := by decide

/-! ## CSV decoding (`try_read_csv`)

`pandas.read_csv` is a library call; it is modelled as an explicit
argument of `try_read_csv`, so theorems about the cascade hold for every
behaviour of the reader.  `readCsvModel` is a concrete model of the
reader's default strict tokenisation used for concrete evaluations. -/

/-- A decoded CSV table: header names and data rows. -/
structure CsvFrame where
  header : List String
  rows : List (List String)
deriving DecidableEq, Repr

deriving instance DecidableEq for Except

/-- Splits a character list at every occurrence of `sep` (the separator
is consumed); always returns at least one group. -/
def splitOnChar (sep : Char) : List Char → List (List Char)
  | [] => [[]]
  | c :: rest =>
    if c == sep then [] :: splitOnChar sep rest
    else
      match splitOnChar sep rest with
      | [] => [[c]]
      | g :: gs => (c :: g) :: gs

/-- Splits a string on a separator character. -/
def splitStr (sep : Char) (s : String) : List String :=
  (splitOnChar sep s.data).map String.mk

/-- Models `pandas.read_csv` with its default C-engine tokenisation:
lines are split on `\n` with blank lines skipped (the default
`skip_blank_lines=True`); the first line is the header, with `n` fields;
the first data row fixes the table width `w` — when it carries more
than `n` fields the parse still succeeds and its leading `w - n` fields
(and every later row's) become an implicit row index, per pandas'
documented implicit-index handling; each row is then checked against
`w`: a row with more than `w` fields aborts the whole parse with a
tokenising error, one with fewer is padded with empty cells.  The frame
keeps the cells under the header; the implicit index is not
represented, since no caller of `try_read_csv` reads it.  An input with
no lines at all is an `EmptyDataError`. -/
def readCsvModel (sep : Char) (content : String) : Except Unit CsvFrame :=
  match (splitStr '\n' content).filter (fun l => l ≠ "") with
  | [] => .error ()
  | h :: rest =>
    let hf := splitStr sep h
    let n := hf.length
    match rest with
    | [] => .ok ⟨hf, []⟩
    | r0 :: rs =>
      let w := max n (splitStr sep r0).length
      match (r0 :: rs).mapM (fun line =>
          let fs := splitStr sep line
          if fs.length > w then Except.error ()
          else Except.ok ((fs ++ List.replicate (w - fs.length) "").drop (w - n))) with
      | .ok rws => .ok ⟨hf, rws⟩
      | .error e => .error e

/-- `try_read_csv` from `fetch_inmet.py`.  `readCsv enc sep content`
stands for `pd.read_csv(io.BytesIO(content), sep=..., encoding=enc)`;
`sep = none` is the pandas default (comma).  The three semicolon
attempts are wrapped in `try`/`except`; the final comma attempt is not,
so its failure propagates. -/
def try_read_csv (readCsv : String → Option Char → String → Except Unit CsvFrame)
    (content : String) : Except Unit CsvFrame :=
  match readCsv "latin-1" (some ';') content with
  | .ok df => .ok df
  | .error _ =>
    match readCsv "utf-8-sig" (some ';') content with
    | .ok df => .ok df
    | .error _ =>
      match readCsv "utf-8" (some ';') content with
      | .ok df => .ok df
      | .error _ => readCsv "latin-1" none content

/-- First-success cascade over a list of attempts, falling through to a
final attempt whose failure is not caught. -/
def firstOkThen : List (Except Unit CsvFrame) → Except Unit CsvFrame → Except Unit CsvFrame
  | [], last => last
  | e :: rest, last =>
    match e with
    | .ok df => .ok df
    | .error _ => firstOkThen rest last

/-- A concrete reader instance: the modelled pandas reader.  Encodings
behave identically on the ASCII inputs exercised here (`latin-1` decodes
every byte string and the inputs contain no bytes above 127), so the
encoding argument is ignored. -/
def csvInst : String → Option Char → String → Except Unit CsvFrame :=
  fun _ sep content => readCsvModel (match sep with | some s => s | none => ',') content

example : readCsvModel ';' "a;b\n1;2\n3;4" = .ok ⟨["a", "b"], [["1", "2"], ["3", "4"]]⟩ := by decide

example : readCsvModel ';' "a;b\n1;2;3" = .ok ⟨["a", "b"], [["2", "3"]]⟩ := by decide

example : readCsvModel ';' "a;b\n1;2\n3;4;5" = .error () := by decide

example : try_read_csv csvInst "a;b\n1;2" = .ok ⟨["a", "b"], [["1", "2"]]⟩ := by decide

/-! ## The canonical schema and `normalize_columns`

A decoded table (`RawFrame`) carries arbitrary column names and string
cells.  `pd.to_datetime(..., errors="coerce", dayfirst=True)` and
`pd.to_numeric(..., errors="coerce")` are library calls; they are
modelled as explicit total arguments `parseDate` and `toNumeric`
(totality is exactly `errors="coerce"`: an unparseable token becomes a
null, never an exception), so every theorem holds for every behaviour of
the two parsers. -/

/-- A decoded table with arbitrary column names: the input of
`normalize_columns`. -/
structure RawFrame where
  cols : List String
  rows : List (List String)
deriving DecidableEq, Repr

/-- One row of the canonical schema produced by `normalize_columns`; the
field order mirrors the order in which the python code inserts the
output columns.  `data` is the derived timestamp (`none` = `NaT`),
measurements are numeric-or-null. -/
structure NormRow where
  data : Option Int
  temperatura_media : Option ℚ
  temperatura_maxima : Option ℚ
  temperatura_minima : Option ℚ
  umidade_relativa : Option ℚ
  precipitacao : Option ℚ
  velocidade_vento : Option ℚ
  pressao_atmosferica : Option ℚ
deriving DecidableEq, Repr

/-- The header of the canonical schema, in output order (the order of
`out[...] = ...` assignments in `normalize_columns`, which is also the
order of the fields of `NormRow`). -/
def normColumns : List String :=
  ["DATA", "TEMPERATURA_MEDIA", "TEMPERATURA_MAXIMA", "TEMPERATURA_MINIMA",
   "UMIDADE_RELATIVA", "PRECIPITACAO", "VELOCIDADE_VENTO", "PRESSAO_ATMOSFERICA"]

/-- `df.rename(columns={c: norm(c) for c in df.columns})`. -/
def normFrame (f : RawFrame) : RawFrame :=
  ⟨f.cols.map normName, f.rows⟩

/-- `df[c]` for a label that occurs exactly once: the cell of each row
under column `c`.  When the label is duplicated, pandas `df[c]` returns
a two-column `DataFrame` instead and every downstream
`to_datetime`/`to_numeric` call raises — that error path is captured by
`normRaises` below, and `colVals` is only consulted on labels it has
checked to be unique (plus a duplicated `HORA` label, whose failing
concatenation the code catches, falling back to the date-only parse). -/
def colVals (f : RawFrame) (c : String) : List String :=
  match f.cols.findIdx? (fun d => d == c) with
  | some i => f.rows.map (fun r => r.getD i "")
  | none => f.rows.map (fun _ => "")

/-- The date-only aliases recognised by `normalize_columns`. -/
def dateAliases : List String :=
  ["DATA", "DATA_MEDICAO", "DT_MEDICAO", "DT_MED"]

/-- The canonical label `c` occurs more than once, so pandas `df[c]`
yields a `DataFrame`, not a `Series`. -/
def labelDup (nf : RawFrame) (c : String) : Bool :=
  2 ≤ nf.cols.count c

/-- The timestamp derivation of `normalize_columns` (lines 73-83): adopt
`DATA` or the first recognised alias as the date column; when a column
starting with `HORA` exists, parse the concatenation `date + " " + hour`
row-wise, otherwise parse the date alone; when no date-like column
exists at all, every timestamp is null (`pd.to_datetime(None)`
broadcast).  A duplicated `HORA` label makes the concatenation raise
inside the `try` at line 78, so the code falls back to the date-only
parse of line 81; a duplicated date label raises uncaught and is
handled by `normRaises`, never reaching this derivation. -/
def deriveData (parseDate : String → Option Int) (nf : RawFrame) : List (Option Int) :=
  let dataSrc : Option (List String) :=
    if nf.cols.contains "DATA" then some (colVals nf "DATA")
    else
      match (nf.cols.filter (fun c => dateAliases.contains c)).head? with
      | some c => some (colVals nf c)
      | none => none
  match dataSrc with
  | none => nf.rows.map (fun _ => none)
  | some ds =>
    match (nf.cols.filter (fun c => startsWithStr "HORA" c)).head? with
    | some h =>
      if labelDup nf h then ds.map parseDate
      else List.zipWith (fun d hv => parseDate (d ++ " " ++ hv)) ds (colVals nf h)
    | none => ds.map parseDate

/-- `cand_temp`: columns containing `TEMPERATURA` and one of
`MEDIA`/`AR`/`BULBO`. -/
def candTemp (nf : RawFrame) : List String :=
  nf.cols.filter (fun c =>
    containsSub c "TEMPERATURA" &&
      (containsSub c "MEDIA" || containsSub c "AR" || containsSub c "BULBO"))

/-- `cand_tmax`: columns containing `TEMPERATURA_MAX`. -/
def candTmax (nf : RawFrame) : List String :=
  nf.cols.filter (fun c => containsSub c "TEMPERATURA_MAX")

/-- `cand_tmin`: columns containing `TEMPERATURA_MIN`. -/
def candTmin (nf : RawFrame) : List String :=
  nf.cols.filter (fun c => containsSub c "TEMPERATURA_MIN")

/-- `cand_umid`: columns containing `UMIDADE` and `REL` or `RELATIVA`. -/
def candUmid (nf : RawFrame) : List String :=
  nf.cols.filter (fun c =>
    containsSub c "UMIDADE" && (containsSub c "REL" || containsSub c "RELATIVA"))

/-- `cand_prec`: columns containing `PRECIP`. -/
def candPrec (nf : RawFrame) : List String :=
  nf.cols.filter (fun c => containsSub c "PRECIP")

/-- `cand_vento`: columns containing `VENTO` and `VELOC` or `VEL`. -/
def candVento (nf : RawFrame) : List String :=
  nf.cols.filter (fun c =>
    containsSub c "VENTO" && (containsSub c "VELOC" || containsSub c "VEL"))

/-- `cand_press`: columns containing `PRESSAO`. -/
def candPress (nf : RawFrame) : List String :=
  nf.cols.filter (fun c => containsSub c "PRESSAO")

/-- `pick(cols)` followed by `pd.to_numeric(..., errors="coerce")`: the
first candidate column coerced cell-wise, or an all-null column when no
candidate exists. -/
def pick (toNumeric : String → Option ℚ) (nf : RawFrame) (cands : List String) :
    List (Option ℚ) :=
  match cands.head? with
  | some c => (colVals nf c).map toNumeric
  | none => nf.rows.map (fun _ => none)

/-- The candidate list used for `TEMPERATURA_MEDIA`:
`[c for c in cand_temp if "MEDIA" in c] or cand_temp`. -/
def tempSel (nf : RawFrame) : List String :=
  let m := (candTemp nf).filter (fun c => containsSub c "MEDIA")
  if m.isEmpty then candTemp nf else m

/-- The projected (pre-fallback) `TEMPERATURA_MEDIA` column. -/
def projMedia (t : String → Option ℚ) (nf : RawFrame) : List (Option ℚ) :=
  pick t nf (tempSel nf)

/-- The projected `TEMPERATURA_MAXIMA` column. -/
def projMax (t : String → Option ℚ) (nf : RawFrame) : List (Option ℚ) :=
  pick t nf (candTmax nf)

/-- The projected `TEMPERATURA_MINIMA` column. -/
def projMin (t : String → Option ℚ) (nf : RawFrame) : List (Option ℚ) :=
  pick t nf (candTmin nf)

/-- Row-wise `(max + min) / 2.0` with pandas null propagation. -/
def avgOpt (a b : Option ℚ) : Option ℚ :=
  match a, b with
  | some x, some y => some ((x + y) / 2)
  | _, _ => none

/-- The guard of the mean-temperature fallback (line 107-108): the
projected mean column is entirely null and the max and min columns each
hold at least one value. -/
def fallbackCond (t : String → Option ℚ) (nf : RawFrame) : Bool :=
  (projMedia t nf).all (fun x => x.isNone) &&
    !((projMax t nf).all (fun x => x.isNone)) &&
    !((projMin t nf).all (fun x => x.isNone))

/-- The final `TEMPERATURA_MEDIA` column, applying the derived-average
fallback exactly when `fallbackCond` holds (lines 107-109). -/
def mediaFinal (t : String → Option ℚ) (nf : RawFrame) : List (Option ℚ) :=
  if fallbackCond t nf then List.zipWith avgOpt (projMax t nf) (projMin t nf)
  else projMedia t nf

/-- `pick` raises: the chosen candidate's canonical label is
duplicated, so `pd.to_numeric(df[cols[0]], errors="coerce")` receives a
`DataFrame` and raises a `TypeError` (the `errors` flag governs invalid
values, not an invalid argument type). -/
def pickRaises (nf : RawFrame) (cands : List String) : Bool :=
  match cands.head? with
  | some c => labelDup nf c
  | none => false

/-- `normalize_columns` raises.  The timestamp stage raises when the
adopted date label is duplicated: for an original `DATA` column,
`pd.to_datetime` at line 81 or 83 receives a two-column `DataFrame` and
raises a `ValueError` (unit-assembly requires year/month/day columns)
regardless of `errors="coerce"`; for an alias, the assignment
`df["DATA"] = df[data_cols[0]]` at line 76 raises ("cannot set a
DataFrame with multiple columns to the single column").  Each
measurement projection raises as described at `pickRaises`.  A
duplicated `HORA` label alone does not raise — its failure is caught by
the `try` at line 78.  Unaccessed duplicated labels are harmless. -/
def normRaises (nf : RawFrame) : Bool :=
  (if nf.cols.contains "DATA" then labelDup nf "DATA"
   else
     match (nf.cols.filter (fun c => dateAliases.contains c)).head? with
     | some a => labelDup nf a
     | none => false) ||
  pickRaises nf (tempSel nf) || pickRaises nf (candTmax nf) ||
  pickRaises nf (candTmin nf) || pickRaises nf (candUmid nf) ||
  pickRaises nf (candPrec nf) || pickRaises nf (candVento nf) ||
  pickRaises nf (candPress nf)

/-- The row assembly of `normalize_columns`: derive the timestamp,
project the seven measurement columns by fuzzy matching, apply the
mean-temperature fallback, and assemble one output row per input row.
This is the behaviour on the non-raising path; `normalize_columns`
wraps it. -/
def normRows (parseDate : String → Option Int) (toNumeric : String → Option ℚ)
    (f : RawFrame) : List NormRow :=
  let nf := normFrame f
  let d := deriveData parseDate nf
  let tm := mediaFinal toNumeric nf
  let ta := projMax toNumeric nf
  let ti := projMin toNumeric nf
  let um := pick toNumeric nf (candUmid nf)
  let pr := pick toNumeric nf (candPrec nf)
  let vv := pick toNumeric nf (candVento nf)
  let pa := pick toNumeric nf (candPress nf)
  (List.range f.rows.length).map (fun i =>
    ⟨d.getD i none, tm.getD i none, ta.getD i none, ti.getD i none,
     um.getD i none, pr.getD i none, vv.getD i none, pa.getD i none⟩)

/-- `normalize_columns` from `fetch_inmet.py`: rename columns
canonically, then derive the timestamp and project the measurements.
On a table whose canonicalized headers collide on an accessed label the
python function raises (`Except.error`, caught upstream at the ZIP
boundary); otherwise every accessed label is unique — so the first-match
`colVals` is exactly pandas `df[c]` — and the rows of `normRows` are
returned. -/
def normalize_columns (parseDate : String → Option Int) (toNumeric : String → Option ℚ)
    (f : RawFrame) : Except Unit (List NormRow) :=
  if normRaises (normFrame f) then .error ()
  else .ok (normRows parseDate toNumeric f)

/-! ## The combiner (`main`, lines 181-187)

`pd.concat` then `dropna(subset=["DATA"])`, `sort_values("DATA")`,
`drop_duplicates(subset=["DATA"])` (default `keep="first"`). -/

/-- The sort key of `sort_values("DATA")`; the sort only ever runs after
the `dropna`, so every row carries a timestamp and the default is never
compared. -/
def ikey (r : NormRow) : Int :=
  r.data.getD 0

/-- `dropna(subset=["DATA"])`. -/
def dropnaData (l : List NormRow) : List NormRow :=
  l.filter (fun r => r.data.isSome)

/-- `drop_duplicates(subset=["DATA"])`, scanning forward and keeping the
first row of every `DATA` value (`seen` holds the values already kept). -/
def dedupGo (seen : List (Option Int)) : List NormRow → List NormRow
  | [] => []
  | r :: rest =>
    if r.data ∈ seen then dedupGo seen rest
    else r :: dedupGo (r.data :: seen) rest

/-- `drop_duplicates(subset=["DATA"])` with the default `keep="first"`. -/
def dedupByData (l : List NormRow) : List NormRow :=
  dedupGo [] l

/-- Non-decreasing on the `DATA` key. -/
def sortedLE (l : List NormRow) : Prop :=
  l.Pairwise (fun a b => ikey a ≤ ikey b)

/-- `out` is a possible result of `sort_values("DATA")` on `inp`: a
permutation of the input, non-decreasing on the key.  pandas' default
`kind="quicksort"` specifies nothing about the relative order of rows
with equal keys, so the sort is modelled relationally. -/
def IsSortOf (inp out : List NormRow) : Prop :=
  inp.Perm out ∧ sortedLE out

/-- One concrete realisation of the sort (an insertion sort); used where
a claim does not depend on the order among equal keys. -/
def insertByData (r : NormRow) : List NormRow → List NormRow
  | [] => [r]
  | s :: rest =>
    if ikey r < ikey s then r :: s :: rest else s :: insertByData r rest

/-- Concrete sort realisation. -/
def sortByData : List NormRow → List NormRow
  | [] => []
  | r :: rest => insertByData r (sortByData rest)

/-- The combiner of `main`: concatenate, drop null timestamps, sort by
timestamp, drop duplicate timestamps keeping the first. -/
def combine (tables : List (List NormRow)) : List NormRow :=
  dedupByData (sortByData (dropnaData tables.flatten))

/-- The tail of `main` (lines 177-187): when no table at all was
collected the run stops early without writing (`none`); otherwise the
combined rows are written (`some rows`, the file holding the header and
those rows). -/
def runMain (tables : List (List NormRow)) : Option (List NormRow) :=
  if tables.isEmpty then none else some (combine tables)

/-! ## The fetch control flow (`download_and_extract_for_year`, `main`)

The network, the HTML parser and the ZIP/CSV processing of one archive
member are impure; they are modelled as an environment of fallible
functions.  `Except.error` stands for a raised exception; a `do`-bind on
an environment call models a call *outside* any `try`/`except`, while an
explicit `match` whose error branch continues models a `try`/`except`
of the python code. -/

/-- `BASE_URL` from `fetch_inmet.py`. -/
def BASE_URL : String :=
  "https://portal.inmet.gov.br/dadoshistoricos"

/-- An HTTP response: whether the declared content type is HTML, and the
body. -/
structure FetchPage where
  isHtml : Bool
  body : String
deriving DecidableEq, Repr

/-- The impure collaborators of the fetch loop.  `fetch` is `get(session,
url)` (an error is a raised transport exception: timeout or
`raise_for_status`); `yearLinks` is `find_year_links` on a body;
`parseZips` is `find_zip_links` on a listing body (it may raise);
`zipFetch` is the retrieval plus unpacking of one ZIP URL, yielding its
target-station CSV members (any step may raise); `readNorm` is
`try_read_csv` followed by `normalize_columns` on one member (either
may raise: the uncaught final read attempt, or normalization on a table
with colliding canonical labels). -/
structure FetchEnv where
  fetch : String → Except String FetchPage
  yearLinks : String → Nat → Option String
  parseZips : String → Except String (List String)
  zipFetch : String → Except String (List String)
  readNorm : String → Except String (List NormRow)

/-- The member loop inside the per-ZIP `try` (lines 147-150): members
are processed in order and their tables accumulated; a raise at one
member aborts the remaining members of that ZIP (the flag records that
the ZIP's `except` fired), but the tables of the earlier members were
already appended and are kept. -/
def membersLoop (env : FetchEnv) : List String → List (List NormRow) × Bool
  | [] => ([], false)
  | m :: rest =>
    match env.readNorm m with
    | .ok t =>
      let p := membersLoop env rest
      (t :: p.1, p.2)
    | .error _ => ([], true)

/-- One iteration of the ZIP loop (lines 140-152): everything is inside
`try`/`except`, so a failure is logged (the flag) and never escapes. -/
def processZip (env : FetchEnv) (zurl : String) : List (List NormRow) × Bool :=
  match env.zipFetch zurl with
  | .error _ => ([], true)
  | .ok members => membersLoop env members

/-- `download_and_extract_for_year` (lines 116-153).  The two `get`
calls (line 118 for the index, line 125 for the year URL) sit outside
every `try`/`except`: their failure propagates out of the function.  A
`find_zip_links` failure is caught and yields no ZIPs for the year; each
ZIP is processed under its own `try`. -/
def downloadYear (env : FetchEnv) (year : Nat) : Except String (List (List NormRow)) := do
  let res ← env.fetch BASE_URL
  match env.yearLinks res.body year with
  | none => pure []
  | some yurl => do
    let resY ← env.fetch yurl
    let zips : List String :=
      if resY.isHtml then
        match env.parseZips resY.body with
        | .ok zs => zs
        | .error _ => []
      else [yurl]
    pure (zips.foldl (fun acc z => acc ++ (processZip env z).1) [])

/-- The year loop of `main` (lines 172-175): no `try`/`except` around
the per-year call, so an exception escaping `download_and_extract_for_year`
aborts the whole loop. -/
def mainLoop (env : FetchEnv) (years : List Nat) : Except String (List (List NormRow)) :=
  years.foldlM (fun acc y => do
    let dfs ← downloadYear env y
    pure (acc ++ dfs)) []

/-- The whole run: the year loop followed by the combiner tail. -/
def runPipeline (env : FetchEnv) (years : List Nat) : Except String (Option (List NormRow)) :=
  (mainLoop env years).map runMain

/-- `Except` success test. -/
def isOkE {ε α : Type} : Except ε α → Bool
  | .ok _ => true
  | .error _ => false

/-! ## Demonstration rows -/

/-- A demonstration row with timestamp 1. -/
def rowT1 : NormRow := ⟨some 1, some 10, none, none, none, none, none, none⟩

/-- A demonstration row with timestamp 2. -/
def rowT2 : NormRow := ⟨some 2, some 11, none, none, none, none, none, none⟩

/-- Timestamp 5, mean temperature 1. -/
def rowD1 : NormRow := ⟨some 5, some 1, none, none, none, none, none, none⟩

/-- Timestamp 5, mean temperature 2: a duplicate of `rowD1`'s timestamp
with a different measurement. -/
def rowD2 : NormRow := ⟨some 5, some 2, none, none, none, none, none, none⟩

/-- A row whose timestamp failed to parse. -/
def rowNull : NormRow := ⟨none, none, none, none, none, none, none, none⟩

/-! ## Claim C9

The claim as stated fails on the code: on a table whose columns collide
after canonicalization on an accessed label — decoded headers `Data`
and `DATA` both canonicalize to `DATA` — `pd.to_datetime(df.get("DATA"),
errors="coerce")` receives a two-column `DataFrame` and raises a
`ValueError`, so `normalize_columns` returns nothing at all, let alone
a row-count-preserving table. -/

/-- A numeric parser for the witness tables. -/
def tDemo : String → Option ℚ :=
  fun s => if s = "30" then some 30 else if s = "20" then some 20 else none

/-- A date parser for the witness tables. -/
def pDemo : String → Option Int :=
  fun _ => none

/-- A witness table: no mean-temperature column, max 30 and min 20 on
its single row; all canonical labels distinct. -/
def demoFrame : RawFrame :=
  ⟨["Data", "Temperatura Máxima", "Temperatura Mínima"], [["2020-01-01", "30", "20"]]⟩

/-- A table whose two date headers collide after canonicalization:
`Data` and `DATA` both become `DATA`. -/
def dupDataFrame : RawFrame :=
  ⟨["Data", "DATA"], [["01/01/2020", "02/01/2020"]]⟩

/-- Counterexample to C9 as stated: on `dupDataFrame` the python
function raises (`pd.to_datetime` on the duplicated `DATA` label gets a
`DataFrame`), so no eight-column, row-count-preserving table is
returned. -/
theorem claim_C9_counterexample :
    normalize_columns pDemo tDemo dupDataFrame = .error () := by decide

/-- Claim C9 (amended): for every input table whose canonicalized
headers are collision-free on the labels normalization accesses
(`normRaises` false), `normalize_columns` returns a table with exactly
the eight canonical columns `DATA`, `TEMPERATURA_MEDIA`,
`TEMPERATURA_MAXIMA`, `TEMPERATURA_MINIMA`, `UMIDADE_RELATIVA`,
`PRECIPITACAO`, `VELOCIDADE_VENTO`, `PRESSAO_ATMOSFERICA` in that fixed
order (the schema `normColumns`, which is also the field order of
`NormRow`), and exactly one output row per input row; on a table with a
collision on an accessed label it raises instead. -/
theorem claim_C9 (p : String → Option Int) (t : String → Option ℚ) (f : RawFrame)
    (h : normRaises (normFrame f) = false) :
    normalize_columns p t f = .ok (normRows p t f) ∧
    (normRows p t f).length = f.rows.length ∧
    normColumns = ["DATA", "TEMPERATURA_MEDIA", "TEMPERATURA_MAXIMA", "TEMPERATURA_MINIMA",
      "UMIDADE_RELATIVA", "PRECIPITACAO", "VELOCIDADE_VENTO", "PRESSAO_ATMOSFERICA"] := by
  refine ⟨?_, ?_, rfl⟩
  · unfold normalize_columns
    rw [if_neg (by simp [h])]
  · unfold normRows
    simp

/-- Witness for C9 at the collision-free `demoFrame`. -/
theorem claim_C9_witness :
    normalize_columns pDemo tDemo demoFrame = .ok (normRows pDemo tDemo demoFrame) ∧
    (normRows pDemo tDemo demoFrame).length = demoFrame.rows.length ∧
    normColumns = ["DATA", "TEMPERATURA_MEDIA", "TEMPERATURA_MAXIMA", "TEMPERATURA_MINIMA",
      "UMIDADE_RELATIVA", "PRECIPITACAO", "VELOCIDADE_VENTO", "PRESSAO_ATMOSFERICA"] :=
  claim_C9 pDemo tDemo demoFrame (by decide)

/-! ## Claim C10 -/

/-- Claim C10: the "no data found" early termination (`runMain _ = none`,
no file written) happens exactly when zero normalized tables were
collected; with at least one table whose rows all have a null `DATA`,
the run still writes the combined file, which holds the header and no
data rows (`some []`). -/
theorem claim_C10 (ts : List (List NormRow)) :
    (runMain ts = none ↔ ts = []) ∧
    ((∀ t ∈ ts, ∀ r ∈ t, r.data = none) → ts ≠ [] → runMain ts = some []) := by
  constructor
  · unfold runMain
    cases ts <;> simp
  · intro hall hne
    have hempty : dropnaData ts.flatten = [] := by
      unfold dropnaData
      rw [List.filter_eq_nil_iff]
      intro r hr
      obtain ⟨t, ht, hrt⟩ := List.mem_flatten.mp hr
      simp [hall t ht r hrt]
    unfold runMain
    rw [if_neg (by simpa using hne)]
    simp [combine, hempty, sortByData, dedupByData, dedupGo]

/-- Witness for C10 at a single table whose only row has a null
timestamp. -/
theorem claim_C10_witness : runMain [[rowNull]] = some [] :=
  (claim_C10 [[rowNull]]).2 (by decide) (by decide)

/-! ## Claim C3

The claim as stated fails on the code: `try_read_csv` tries the
*semicolon* delimiter only for each of the three encodings, never a
comma or auto-detection per encoding; and when every attempt fails it
does not return an empty result — the final `pd.read_csv` call (latin-1,
default comma delimiter) sits outside the `try`/`except` and its
exception propagates. -/

/-- Counterexample to C3 as stated: on an input no attempt can parse,
`try_read_csv` raises (`Except.error`) instead of returning an empty
result.  Under the semicolon delimiter the header and first data row
have two fields and the second data row has three — an overflow the
implicit-index exemption does not cover, a `ParserError`; under the
final comma attempt the header and first data row have one field and
the last row two, again a `ParserError`. -/
theorem claim_C3_counterexample :
    try_read_csv csvInst "a;b\n1;2\n3;4;5\nx,y" = .error () := by decide

/-- Claim C3 (amended): the decoder attempts, in fixed priority order,
`(latin-1, ";")`, `(utf-8-sig, ";")`, `(utf-8, ";")`, returning the
first successful parse; when all three fail it makes one final attempt
with `latin-1` and the default comma delimiter, whose outcome — success
or raised exception — is returned unshielded.  This holds for every
behaviour of the underlying reader. -/
theorem claim_C3 (r : String → Option Char → String → Except Unit CsvFrame) (c : String) :
    try_read_csv r c =
      firstOkThen [r "latin-1" (some ';') c, r "utf-8-sig" (some ';') c, r "utf-8" (some ';') c]
        (r "latin-1" none c) := by
  unfold try_read_csv
  cases h1 : r "latin-1" (some ';') c with
  | ok d => simp [firstOkThen, h1]
  | error e1 =>
    cases h2 : r "utf-8-sig" (some ';') c with
    | ok d => simp [firstOkThen, h1, h2]
    | error e2 =>
      cases h3 : r "utf-8" (some ';') c with
      | ok d => simp [firstOkThen, h1, h2, h3]
      | error e3 => simp [firstOkThen, h1, h2, h3]

/-! ## Claim C4

The claim as stated fails on the code: no lenient mode
(`on_bad_lines="skip"` or the like) is ever passed to `pd.read_csv`, so
a row (beyond the first data row, which may legitimately widen the
table) that tokenises into too many fields aborts the whole attempt for
that (encoding, delimiter) pair instead of being skipped. -/

/-- Counterexample to C4 as stated: for a semicolon CSV whose third
line `3;4;5` overflows the two-field width fixed by the header `a;b`
and first data row `1;2` (a later row, so pandas' implicit-index
exemption does not apply), the decoder does not yield the other
well-formed rows tokenised under the semicolon delimiter (which would
be the frame `⟨[a, b], [[1, 2], [6, 7]]⟩`); every semicolon attempt
aborts and the comma fallback returns a degenerate single-column frame
that still contains the malformed row. -/
theorem claim_C4_counterexample :
    try_read_csv csvInst "a;b\n1;2\n3;4;5\n6;7" =
      .ok ⟨["a;b"], [["1;2"], ["3;4;5"], ["6;7"]]⟩ ∧
    (⟨["a;b"], [["1;2"], ["3;4;5"], ["6;7"]]⟩ : CsvFrame) ≠
      ⟨["a", "b"], [["1", "2"], ["6", "7"]]⟩ :=
  ⟨by decide, by decide⟩

/-- Claim C4 (amended): a malformed row does not get skipped.  When the
semicolon tokenisation fails — a row beyond the first data row carrying
more fields than the width fixed by the header and first data row
(pandas' implicit-index handling exempts a wide *first* data row) — it
fails as a whole, for every encoding, and the decoder returns whatever
the final comma-delimiter attempt produces. -/
theorem claim_C4 (c : String) (h : readCsvModel ';' c = .error ()) :
    try_read_csv csvInst c = readCsvModel ',' c := by
  unfold try_read_csv csvInst
  simp [h]

/-- Witness for C4 at the malformed input of the counterexample. -/
theorem claim_C4_witness :
    readCsvModel ';' "a;b\n1;2\n3;4;5\n6;7" = .error () ∧
    try_read_csv csvInst "a;b\n1;2\n3;4;5\n6;7" = readCsvModel ',' "a;b\n1;2\n3;4;5\n6;7" :=
  ⟨by decide, claim_C4 _ (by decide)⟩

/-! ## Claim C2

The claim as stated fails on the code: the `get` calls for the index
page (line 118) and for the year's URL (line 125) are outside every
`try`/`except`, and `main`'s year loop has none either, so a transport
error on a year's request propagates and aborts the whole run — the
remaining years are never processed.  (Within one ZIP, a failure at one
archive member also aborts the remaining members of that ZIP, though it
is caught at the ZIP boundary.) -/

/-- An environment in which the year-2001 request fails with a transport
error while year 2002 has perfectly good data. -/
def cexEnv : FetchEnv where
  fetch := fun u => if u = "https://year/2001" then .error "HTTPError 500" else .ok ⟨true, u⟩
  yearLinks := fun _ y =>
    if y = 2001 then some "https://year/2001"
    else if y = 2002 then some "https://year/2002" else none
  parseZips := fun b => if b = "https://year/2002" then .ok ["https://zip/2002"] else .ok []
  zipFetch := fun _ => .ok ["member.csv"]
  readNorm := fun _ => .ok [rowT1]

/-- Counterexample to C2 as stated: the transport error on year 2001's
request aborts the whole run (`Except.error` escapes `mainLoop`), losing
year 2002's data — which the same environment delivers when 2002 is
requested alone.  The claim demands that the failure be caught at the
year boundary and processing continue. -/
theorem claim_C2_counterexample :
    mainLoop cexEnv [2000, 2001, 2002] = .error "HTTPError 500" ∧
    mainLoop cexEnv [2002] = .ok [[rowT1]] :=
  ⟨by decide, by decide⟩

/-- `Except.ok` is left identity of the monad's bind. -/
theorem exceptBind_ok {ε α β : Type} (a : α) (f : α → Except ε β) :
    (Except.ok a >>= f : Except ε β) = f a := rfl

/-- An error short-circuits the monad's bind. -/
theorem exceptBind_error {ε α β : Type} (e : ε) (f : α → Except ε β) :
    (Except.error e >>= f : Except ε β) = .error e := rfl

/-- The monad's pure is `Except.ok`. -/
theorem exceptPure {ε α : Type} (a : α) : (pure a : Except ε α) = .ok a := rfl

/-- Helper: when every transport request succeeds,
`download_and_extract_for_year` never raises, whatever the ZIP fetches,
listing parses and member reads do. -/
theorem downloadYear_ok (env : FetchEnv) (y : Nat)
    (h : ∀ u, isOkE (env.fetch u) = true) :
    ∃ ts, downloadYear env y = .ok ts := by
  unfold downloadYear
  cases hB : env.fetch BASE_URL with
  | error e => exact absurd (h BASE_URL) (by simp [hB, isOkE])
  | ok p =>
    cases hL : env.yearLinks p.body y with
    | none => exact ⟨[], by simp [hB, hL, exceptBind_ok]; rfl⟩
    | some yurl =>
      cases hY : env.fetch yurl with
      | error e => exact absurd (h yurl) (by simp [hY, isOkE])
      | ok py => exact ⟨_, by simp [hB, hL, hY, exceptBind_ok]; rfl⟩

/-- Helper: the year loop never raises when every transport request
succeeds. -/
theorem mainLoop_ok_aux (env : FetchEnv) (h : ∀ u, isOkE (env.fetch u) = true) :
    ∀ (years : List Nat) (init : List (List NormRow)),
      ∃ out, (years.foldlM (fun acc y => do
        let dfs ← downloadYear env y
        pure (acc ++ dfs)) init : Except String (List (List NormRow))) = .ok out := by
  intro years
  induction years with
  | nil => exact fun init => ⟨init, rfl⟩
  | cons y ys ih =>
    intro init
    obtain ⟨ts, hts⟩ := downloadYear_ok env y h
    obtain ⟨out, hout⟩ := ih (init ++ ts)
    refine ⟨out, ?_⟩
    rw [List.foldlM_cons, hts]
    simp only [exceptBind_ok, exceptPure]
    exact hout

/-- Claim C2 (amended): failures inside the per-ZIP `try` — fetching one
ZIP, reading one of its members, as well as a parse failure of a year's
listing page — are caught and logged, and processing continues; but the
index-page and year-page requests are unprotected, so the run as a whole
only terminates normally when every one of those transport requests
succeeds, in which case the early termination is solely the no-data
case of `runMain`. -/
theorem claim_C2 (env : FetchEnv) (years : List Nat)
    (h : ∀ u, isOkE (env.fetch u) = true) :
    isOkE (mainLoop env years) = true := by
  obtain ⟨out, hout⟩ := mainLoop_ok_aux env h years []
  unfold mainLoop
  rw [hout]
  rfl

/-- An environment whose transports all succeed but in which one ZIP
fails to fetch and one archive member fails to decode. -/
def isoEnv : FetchEnv where
  fetch := fun u => .ok ⟨true, u⟩
  yearLinks := fun _ _ => some "https://year/y"
  parseZips := fun _ => .ok ["zipA", "zipB"]
  zipFetch := fun z => if z = "zipB" then .error "timeout" else .ok ["good.csv", "bad.csv"]
  readNorm := fun m => if m = "bad.csv" then .error "decode failure" else .ok [rowT1]

/-- Witness for C2: with all transports succeeding, a failing ZIP and a
failing member are absorbed and the loop still returns successfully,
with the successfully read member's table kept. -/
theorem claim_C2_witness :
    isOkE (mainLoop isoEnv [2020, 2021]) = true ∧
    mainLoop isoEnv [2020] = .ok [[rowT1]] :=
  ⟨claim_C2 isoEnv [2020, 2021] (fun _ => rfl), by decide⟩

/-! ## Properties of the combiner -/

/-- The head of a filtered list is the first element satisfying the
predicate. -/
theorem head?_filter_eq_find? (p : α → Bool) (l : List α) :
    (l.filter p).head? = l.find? p := by
  induction l with
  | nil => rfl
  | cons a l ih => by_cases h : p a <;> simp [List.filter_cons, List.find?, h, ih]

/-- The deduplication scan returns a sublist of its input. -/
theorem dedupGo_sublist : ∀ (l : List NormRow) (seen : List (Option Int)),
    List.Sublist (dedupGo seen l) l := by
  intro l
  induction l with
  | nil => intro seen; simp [dedupGo]
  | cons r rest ih =>
    intro seen
    by_cases h : r.data ∈ seen
    · rw [dedupGo, if_pos h]
      exact (ih seen).cons _
    · rw [dedupGo, if_neg h]
      exact (ih _).cons₂ _

/-- The deduplication scan keeps pairwise-distinct `DATA` values, none of
which was already seen. -/
theorem dedupGo_nodupData : ∀ (l : List NormRow) (seen : List (Option Int)),
    (dedupGo seen l).Pairwise (fun a b => a.data ≠ b.data) ∧
      ∀ r ∈ dedupGo seen l, r.data ∉ seen := by
  intro l
  induction l with
  | nil => intro seen; simp [dedupGo]
  | cons r rest ih =>
    intro seen
    by_cases h : r.data ∈ seen
    · rw [dedupGo, if_pos h]
      exact ih seen
    · rw [dedupGo, if_neg h]
      obtain ⟨hpw, hseen⟩ := ih (r.data :: seen)
      refine ⟨List.Pairwise.cons ?_ hpw, ?_⟩
      · intro b hb
        have := hseen b hb
        simp only [List.mem_cons] at this
        exact fun heq => this (Or.inl heq.symm)
      · intro s hs
        rcases List.mem_cons.mp hs with hs | hs
        · subst hs; exact h
        · have := hseen s hs
          simp only [List.mem_cons] at this
          exact fun hmem => this (Or.inr hmem)

/-- A `DATA` value not yet seen survives the deduplication scan exactly
when some input row carries it. -/
theorem dedupGo_mem_key : ∀ (l : List NormRow) (seen : List (Option Int))
    (k : Option Int), k ∉ seen →
    ((∃ r ∈ dedupGo seen l, r.data = k) ↔ (∃ r ∈ l, r.data = k)) := by
  intro l
  induction l with
  | nil => intro seen k _; simp [dedupGo]
  | cons r rest ih =>
    intro seen k hk
    by_cases h : r.data ∈ seen
    · rw [dedupGo, if_pos h]
      rw [ih seen k hk]
      constructor
      · rintro ⟨s, hs, rfl⟩
        exact ⟨s, List.mem_cons_of_mem _ hs, rfl⟩
      · rintro ⟨s, hs, rfl⟩
        rcases List.mem_cons.mp hs with rfl | hs
        · exact absurd h hk
        · exact ⟨s, hs, rfl⟩
    · rw [dedupGo, if_neg h]
      by_cases hrk : r.data = k
      · constructor
        · intro _; exact ⟨r, List.mem_cons_self _ _, hrk⟩
        · intro _; exact ⟨r, List.mem_cons_self _ _, hrk⟩
      · have hk' : k ∉ r.data :: seen := by
          simp only [List.mem_cons]
          rintro (rfl | hmem)
          · exact hrk rfl
          · exact hk hmem
        rw [show (∃ s ∈ r :: dedupGo (r.data :: seen) rest, s.data = k) ↔
            (∃ s ∈ dedupGo (r.data :: seen) rest, s.data = k) by
          constructor
          · rintro ⟨s, hs, rfl⟩
            rcases List.mem_cons.mp hs with rfl | hs
            · exact absurd rfl hrk
            · exact ⟨s, hs, rfl⟩
          · rintro ⟨s, hs, rfl⟩
            exact ⟨s, List.mem_cons_of_mem _ hs, rfl⟩]
        rw [ih _ k hk']
        constructor
        · rintro ⟨s, hs, rfl⟩
          exact ⟨s, List.mem_cons_of_mem _ hs, rfl⟩
        · rintro ⟨s, hs, rfl⟩
          rcases List.mem_cons.mp hs with rfl | hs
          · exact absurd rfl hrk
          · exact ⟨s, hs, rfl⟩

/-- The deduplicated keys are a permutation of the deduplicated key list
of the input. -/
theorem dedupByData_keys_perm (l : List NormRow) :
    ((dedupByData l).map (fun r => r.data)).Perm ((l.map (fun r => r.data)).dedup) := by
  have hnd : ((dedupByData l).map (fun r => r.data)).Nodup :=
    List.pairwise_map.mpr ((dedupGo_nodupData l []).1)
  refine (List.perm_ext_iff_of_nodup hnd (List.nodup_dedup _)).2 ?_
  intro k
  rw [List.mem_dedup, List.mem_map, List.mem_map]
  constructor
  · rintro ⟨r, hr, rfl⟩
    exact ⟨r, (dedupGo_sublist l []).mem hr, rfl⟩
  · rintro ⟨r, hr, rfl⟩
    have := (dedupGo_mem_key l [] r.data (by simp)).2 ⟨r, hr, rfl⟩
    obtain ⟨s, hs, hsd⟩ := this
    exact ⟨s, hs, hsd⟩

/-- The first row carrying a given timestamp is unchanged by the
deduplication scan. -/
theorem dedupGo_find? (d : Int) : ∀ (l : List NormRow) (seen : List (Option Int)),
    (some d) ∉ seen →
    (dedupGo seen l).find? (fun r => r.data == some d) =
      l.find? (fun r => r.data == some d) := by
  intro l
  induction l with
  | nil => intro seen _; rfl
  | cons r rest ih =>
    intro seen hd
    by_cases h : r.data ∈ seen
    · have hrd : (r.data == some d) = false := by
        rcases hrd : r.data == some d with _ | _
        · rfl
        · exact absurd h (by rw [show r.data = some d from by simpa using hrd]; exact hd)
      rw [dedupGo, if_pos h, List.find?, hrd, ih seen hd]
    · rw [dedupGo, if_neg h]
      rcases hrd : r.data == some d with _ | _
      · rw [List.find?, hrd, List.find?, hrd]
        refine ih _ ?_
        simp only [List.mem_cons]
        rintro (heq | hmem)
        · rw [heq] at hrd; simp at hrd
        · exact hd hmem
      · rw [List.find?, hrd, List.find?, hrd]

/-- The timestamps of the rows that survive the `dropna` are exactly the
non-null timestamps of the input, in order. -/
theorem map_data_dropna (l : List NormRow) :
    (dropnaData l).map (fun r => r.data) =
      (l.filterMap (fun r => r.data)).map some := by
  induction l with
  | nil => rfl
  | cons r rest ih =>
    rcases hr : r.data with _ | v
    · simp [dropnaData, List.filter_cons, List.filterMap_cons, hr, ih]
      simpa [dropnaData] using ih
    · simp [dropnaData, List.filter_cons, List.filterMap_cons, hr]
      simpa [dropnaData] using ih

/-- Wrapping a list in `some` does not change how many distinct values it
has. -/
theorem dedup_length_map_some (xs : List Int) :
    ((xs.map some).dedup).length = xs.dedup.length := by
  induction xs with
  | nil => rfl
  | cons x rest ih =>
    by_cases h : x ∈ rest
    · rw [List.map_cons, List.dedup_cons_of_mem (by simpa using h),
        List.dedup_cons_of_mem h, ih]
    · rw [List.map_cons, List.dedup_cons_of_not_mem (by simpa using h),
        List.dedup_cons_of_not_mem h]
      simp [ih]

/-! ## Claim C1 -/

/-- Claim C1: for every sequence of normalized tables and every possible
result of the sort, the combined dataset after the combiner steps (drop
null `DATA`, sort, deduplicate) has no null timestamp, no two rows
sharing a `DATA` value, and strictly ascending `DATA` values. -/
theorem claim_C1 (tables : List (List NormRow)) (sorted : List NormRow)
    (h : IsSortOf (dropnaData tables.flatten) sorted) :
    (∀ r ∈ dedupByData sorted, r.data.isSome = true) ∧
    (dedupByData sorted).Pairwise (fun a b => a.data ≠ b.data) ∧
    (dedupByData sorted).Pairwise (fun a b => ikey a < ikey b) := by
  obtain ⟨hperm, hsort⟩ := h
  have hsub : List.Sublist (dedupByData sorted) sorted := dedupGo_sublist sorted []
  have hsome : ∀ r ∈ sorted, r.data.isSome = true := by
    intro r hr
    have hmem : r ∈ dropnaData tables.flatten := hperm.mem_iff.mpr hr
    exact (List.mem_filter.mp hmem).2
  have hne := (dedupGo_nodupData sorted []).1
  have hle : (dedupByData sorted).Pairwise (fun a b => ikey a ≤ ikey b) :=
    (show sorted.Pairwise (fun a b => ikey a ≤ ikey b) from hsort).sublist hsub
  refine ⟨fun r hr => hsome r (hsub.mem hr), hne, ?_⟩
  refine (hle.and hne).imp_of_mem ?_
  intro a b ha hb hab
  obtain ⟨hab_le, hab_ne⟩ := hab
  obtain ⟨x, hx⟩ := Option.isSome_iff_exists.mp (hsome a (hsub.mem ha))
  obtain ⟨y, hy⟩ := Option.isSome_iff_exists.mp (hsome b (hsub.mem hb))
  have hxy : x ≠ y := fun heq => hab_ne (by rw [hx, hy, heq])
  simp only [ikey, hx, hy, Option.getD_some] at hab_le ⊢
  exact lt_of_le_of_ne hab_le hxy

/-- Witness for C1 at two one-row tables with distinct timestamps. -/
theorem claim_C1_witness :
    (∀ r ∈ dedupByData [rowT1, rowT2], r.data.isSome = true) ∧
    (dedupByData [rowT1, rowT2]).Pairwise (fun a b => a.data ≠ b.data) ∧
    (dedupByData [rowT1, rowT2]).Pairwise (fun a b => ikey a < ikey b) :=
  claim_C1 [[rowT1], [rowT2]] [rowT1, rowT2]
    ⟨by decide, by unfold sortedLE; decide⟩

/-! ## Claim C5

The claim as stated fails on the code in one point: it asserts that the
surviving row among equal `DATA` values is the row encountered first
*before* sorting, justified by a stable sort.  `sort_values` is called
with its default `kind="quicksort"`, which is not stable, so the order
among rows with equal keys after the sort — hence which of them
`drop_duplicates` keeps — is unspecified. -/

/-- Counterexample to C5 as stated: with two rows sharing `DATA` but
differing in temperature, both `[rowD1, rowD2]` and `[rowD2, rowD1]` are
possible results of the unstable sort, and under the second the survivor
is `rowD2`, not the first-encountered `rowD1` that the claim mandates. -/
theorem claim_C5_counterexample :
    IsSortOf (dropnaData [[rowD1], [rowD2]].flatten) [rowD2, rowD1] ∧
    dedupByData [rowD2, rowD1] = [rowD2] ∧ rowD2 ≠ rowD1 := by
  refine ⟨⟨by decide, by unfold sortedLE; decide⟩, by decide, by decide⟩

/-- Claim C5 (amended): for every collection of input tables and every
possible result of the (unstable) sort, the combiner keeps exactly one
row per distinct `DATA` value, namely the first occurrence in the
post-sort order (the first-before-sorting tie-break of the original
claim is not guaranteed), and the output row count equals the number of
distinct non-null `DATA` values across the inputs. -/
theorem claim_C5 (tables : List (List NormRow)) (sorted : List NormRow)
    (h : IsSortOf (dropnaData tables.flatten) sorted) :
    (dedupByData sorted).length =
      ((tables.flatten).filterMap (fun r => r.data)).dedup.length ∧
    ∀ d : Int, (dedupByData sorted).find? (fun r => r.data == some d) =
      sorted.find? (fun r => r.data == some d) := by
  obtain ⟨hperm, _⟩ := h
  constructor
  · have h1 : (dedupByData sorted).length =
        ((sorted.map (fun r => r.data)).dedup).length := by
      have := (dedupByData_keys_perm sorted).length_eq
      simpa using this
    have h2 : (((dropnaData tables.flatten).map (fun r => r.data)).dedup).Perm
        ((sorted.map (fun r => r.data)).dedup) :=
      (hperm.map (fun r => r.data)).dedup
    rw [h1, ← h2.length_eq, map_data_dropna, dedup_length_map_some]
  · intro d
    exact dedupGo_find? d sorted [] (by simp)

/-- Witness for C5 at two one-row tables sharing a timestamp. -/
theorem claim_C5_witness :
    (dedupByData [rowD1, rowD2]).length =
      (([[rowD1], [rowD2]].flatten).filterMap (fun r => r.data)).dedup.length ∧
    ∀ d : Int, (dedupByData [rowD1, rowD2]).find? (fun r => r.data == some d) =
      [rowD1, rowD2].find? (fun r => r.data == some d) :=
  claim_C5 [[rowD1], [rowD2]] [rowD1, rowD2]
    ⟨by decide, by unfold sortedLE; decide⟩

/-! ## Claim C6 -/

/-- Indexing a list by `range` of its length reproduces the list. -/
theorem getD_range_map {α : Type} (l : List α) (d : α) :
    (List.range l.length).map (fun i => l.getD i d) = l := by
  induction l with
  | nil => rfl
  | cons a rest ih =>
    rw [List.length_cons, List.range_succ_eq_map, List.map_cons, List.map_map]
    simp only [List.getD_cons_zero, Function.comp, List.getD_cons_succ]
    exact congrArg (a :: ·) ih

/-- A projected column has one entry per row. -/
theorem colVals_length (f : RawFrame) (c : String) :
    (colVals f c).length = f.rows.length := by
  unfold colVals
  cases f.cols.findIdx? (fun d => d == c) <;> simp

/-- `pick` has one entry per row. -/
theorem pick_length (t : String → Option ℚ) (nf : RawFrame) (cands : List String) :
    (pick t nf cands).length = nf.rows.length := by
  unfold pick
  cases cands.head? <;> simp [colVals_length]

/-- The final mean column has one entry per row. -/
theorem mediaFinal_length (t : String → Option ℚ) (nf : RawFrame) :
    (mediaFinal t nf).length = nf.rows.length := by
  unfold mediaFinal
  by_cases h : fallbackCond t nf <;>
    simp [h, projMedia, projMax, projMin, pick_length, List.length_zipWith]

/-- Extraction of the mean-temperature column from the assembled rows. -/
theorem normalize_media (p : String → Option Int) (t : String → Option ℚ) (f : RawFrame) :
    (normRows p t f).map (fun r => r.temperatura_media) =
      mediaFinal t (normFrame f) := by
  unfold normRows
  rw [List.map_map]
  have hl : f.rows.length = (mediaFinal t (normFrame f)).length := by
    rw [mediaFinal_length]; rfl
  rw [hl]
  exact getD_range_map _ _

/-- A table that satisfies the fallback condition (no mean column, max
30 and min 20 present) but whose two max headers collide after
canonicalization. -/
def dupMaxFrame : RawFrame :=
  ⟨["Data", "Temperatura Maxima", "TEMPERATURA MAXIMA", "Temperatura Minima"],
   [["01/01/2020", "30", "30", "20"]]⟩

/-- Counterexample to C6 as stated: on `dupMaxFrame` the fallback
condition holds (mean entirely null, max and min present), yet
normalization produces no row with mean 25 — or any row at all:
`pd.to_numeric` on the duplicated `TEMPERATURA_MAXIMA` label receives a
`DataFrame` and raises. -/
theorem claim_C6_counterexample :
    fallbackCond tDemo (normFrame dupMaxFrame) = true ∧
    normalize_columns pDemo tDemo dupMaxFrame = .error () :=
  ⟨by decide, by decide⟩

/-- Claim C6 (amended): on every table whose canonicalized headers are
collision-free on the accessed labels, normalization returns its rows
and applies the mean-temperature fallback if and only if the projected
`TEMPERATURA_MEDIA` column is entirely null and both the max and min
temperature columns each hold at least one value (`fallbackCond`); when
it fires, the output mean column is the row-wise average of max and
min; whenever it does not (in particular as soon as the projected mean
column has one real value), the mean column is the projected column, no
row overridden.  On a collision at an accessed label the function
raises instead. -/
theorem claim_C6 (p : String → Option Int) (t : String → Option ℚ) (f : RawFrame)
    (h : normRaises (normFrame f) = false) :
    normalize_columns p t f = .ok (normRows p t f) ∧
    (fallbackCond t (normFrame f) = true →
      (normRows p t f).map (fun r => r.temperatura_media) =
        List.zipWith avgOpt (projMax t (normFrame f)) (projMin t (normFrame f))) ∧
    (fallbackCond t (normFrame f) = false →
      (normRows p t f).map (fun r => r.temperatura_media) =
        projMedia t (normFrame f)) := by
  refine ⟨by unfold normalize_columns; rw [if_neg (by simp [h])], ?_, ?_⟩
  · intro hc
    rw [normalize_media, mediaFinal, if_pos hc]
  · intro hc
    rw [normalize_media, mediaFinal, if_neg (by simp [hc])]

/-- Witness for C6: on the collision-free `demoFrame` the fallback
condition holds and the row with max 30 and min 20 receives mean 25. -/
theorem claim_C6_witness :
    fallbackCond tDemo (normFrame demoFrame) = true ∧
    (normRows pDemo tDemo demoFrame).map (fun r => r.temperatura_media) = [some 25] := by
  refine ⟨by decide, ?_⟩
  rw [(claim_C6 pDemo tDemo demoFrame (by decide)).2.1 (by decide)]
  have hmax : projMax tDemo (normFrame demoFrame) = [some 30] := by decide
  have hmin : projMin tDemo (normFrame demoFrame) = [some 20] := by decide
  rw [hmax, hmin]
  simp only [List.zipWith, avgOpt]
  norm_num

/-! ## Claim C7 -/

/-- Spec rule: mean temperature requires `TEMPERATURA` plus one of
`MEDIA`/`AR`/`BULBO`. -/
def qMedia (c : String) : Bool :=
  containsSub c "TEMPERATURA" &&
    (containsSub c "MEDIA" || containsSub c "AR" || containsSub c "BULBO")

/-- Spec rule: max temperature requires `TEMPERATURA_MAX`. -/
def qMax (c : String) : Bool :=
  containsSub c "TEMPERATURA_MAX"

/-- Spec rule: min temperature requires `TEMPERATURA_MIN`. -/
def qMin (c : String) : Bool :=
  containsSub c "TEMPERATURA_MIN"

/-- Spec rule: humidity requires `UMIDADE` plus `REL` or `RELATIVA`. -/
def qUmid (c : String) : Bool :=
  containsSub c "UMIDADE" && (containsSub c "REL" || containsSub c "RELATIVA")

/-- Spec rule: precipitation requires `PRECIP`. -/
def qPrec (c : String) : Bool :=
  containsSub c "PRECIP"

/-- Spec rule: wind requires `VENTO` plus `VELOC` or `VEL`. -/
def qVento (c : String) : Bool :=
  containsSub c "VENTO" && (containsSub c "VELOC" || containsSub c "VEL")

/-- Spec rule: pressure requires `PRESSAO`. -/
def qPress (c : String) : Bool :=
  containsSub c "PRESSAO"

/-- Spec-side column projection: the first qualifying column in table
order, coerced cell-wise to numeric; a measurement with no qualifying
column becomes an all-null column. -/
def selColumn (t : String → Option ℚ) (nf : RawFrame) : Option String → List (Option ℚ)
  | some c => (colVals nf c).map t
  | none => nf.rows.map (fun _ => none)

/-- Spec-side selection for mean temperature: among the qualifiers,
one containing `MEDIA` is preferred; otherwise the first qualifier in
table order. -/
def selTempSpec (cols : List String) : Option String :=
  match cols.find? (fun c => containsSub c "MEDIA" && qMedia c) with
  | some c => some c
  | none => cols.find? qMedia

/-- The code's "head of filtered candidates" equals the spec's "first
qualifying column". -/
theorem pick_filter_eq_sel (t : String → Option ℚ) (nf : RawFrame) (q : String → Bool) :
    pick t nf (nf.cols.filter q) = selColumn t nf (nf.cols.find? q) := by
  rw [← head?_filter_eq_find?]
  cases h : (nf.cols.filter q).head? with
  | none => simp [pick, selColumn, h]
  | some c => simp [pick, selColumn, h]

/-- A table whose two mean-temperature headers collide after
canonicalization: `Temperatura Média` and `TEMPERATURA MEDIA` both
become `TEMPERATURA_MEDIA`. -/
def dupTempFrame : RawFrame :=
  ⟨["Temperatura Média", "TEMPERATURA MEDIA", "Data"], [["1", "2", "01/01/2020"]]⟩

/-- Counterexample to C7 as stated: the claim's "never raising" fails —
on `dupTempFrame` the selected mean-temperature label is duplicated, so
`pd.to_numeric(df[cols[0]], errors="coerce")` receives a `DataFrame`
and raises a `TypeError`. -/
theorem claim_C7_counterexample :
    normalize_columns pDemo tDemo dupTempFrame = .error () := by decide

/-- Claim C7 (amended): on every table whose canonicalized headers are
collision-free on the accessed labels, normalization returns its rows
without raising, and every measurement column is selected by the stated
fuzzy substring rules over canonical column names — mean temperature by
`qMedia` with `MEDIA` preferred among multiple qualifiers, max/min by
`qMax`/`qMin`, humidity by `qUmid`, precipitation by `qPrec`, wind by
`qVento`, pressure by `qPress` — taking the first qualifying column in
table order; a measurement with no qualifying column becomes an
all-null column, and all selected values are coerced cell-wise by the
total numeric parser (invalid tokens become null).  When the selected
label is duplicated the function raises instead (`pd.to_numeric` on a
`DataFrame`). -/
theorem claim_C7 (p : String → Option Int) (t : String → Option ℚ) (f : RawFrame)
    (h : normRaises (normFrame f) = false) :
    normalize_columns p t f = .ok (normRows p t f) ∧
    (projMedia t (normFrame f) =
      selColumn t (normFrame f) (selTempSpec (normFrame f).cols)) ∧
    (projMax t (normFrame f) = selColumn t (normFrame f) ((normFrame f).cols.find? qMax)) ∧
    (projMin t (normFrame f) = selColumn t (normFrame f) ((normFrame f).cols.find? qMin)) ∧
    (pick t (normFrame f) (candUmid (normFrame f)) =
      selColumn t (normFrame f) ((normFrame f).cols.find? qUmid)) ∧
    (pick t (normFrame f) (candPrec (normFrame f)) =
      selColumn t (normFrame f) ((normFrame f).cols.find? qPrec)) ∧
    (pick t (normFrame f) (candVento (normFrame f)) =
      selColumn t (normFrame f) ((normFrame f).cols.find? qVento)) ∧
    (pick t (normFrame f) (candPress (normFrame f)) =
      selColumn t (normFrame f) ((normFrame f).cols.find? qPress)) := by
  refine ⟨by unfold normalize_columns; rw [if_neg (by simp [h])],
    ?_, pick_filter_eq_sel t _ qMax, pick_filter_eq_sel t _ qMin,
    pick_filter_eq_sel t _ qUmid, pick_filter_eq_sel t _ qPrec,
    pick_filter_eq_sel t _ qVento, pick_filter_eq_sel t _ qPress⟩
  unfold projMedia tempSel
  have hm : (candTemp (normFrame f)).filter (fun c => containsSub c "MEDIA") =
      (normFrame f).cols.filter (fun c => containsSub c "MEDIA" && qMedia c) := by
    unfold candTemp
    exact List.filter_filter ..
  by_cases hcase : ((candTemp (normFrame f)).filter (fun c => containsSub c "MEDIA")).isEmpty
  · rw [if_pos hcase]
    have hnone : (normFrame f).cols.find? (fun c => containsSub c "MEDIA" && qMedia c) = none := by
      rw [← head?_filter_eq_find?, ← hm]
      rcases hh : (candTemp (normFrame f)).filter (fun c => containsSub c "MEDIA") with _ | ⟨a, l⟩
      · rfl
      · rw [hh] at hcase; simp [List.isEmpty] at hcase
    rw [selTempSpec, hnone]
    exact pick_filter_eq_sel t _ qMedia
  · rw [if_neg hcase]
    rcases hh : (candTemp (normFrame f)).filter (fun c => containsSub c "MEDIA") with _ | ⟨a, l⟩
    · rw [hh] at hcase; simp [List.isEmpty] at hcase
    · have hsome : (normFrame f).cols.find? (fun c => containsSub c "MEDIA" && qMedia c) =
          some a := by
        rw [← head?_filter_eq_find?, ← hm, hh]; rfl
      rw [selTempSpec, hsome]
      simp [pick, selColumn]

/-- Witness for C7 at the collision-free `demoFrame`. -/
theorem claim_C7_witness :
    normalize_columns pDemo tDemo demoFrame = .ok (normRows pDemo tDemo demoFrame) ∧
    (projMedia tDemo (normFrame demoFrame) =
      selColumn tDemo (normFrame demoFrame) (selTempSpec (normFrame demoFrame).cols)) ∧
    (projMax tDemo (normFrame demoFrame) =
      selColumn tDemo (normFrame demoFrame) ((normFrame demoFrame).cols.find? qMax)) ∧
    (projMin tDemo (normFrame demoFrame) =
      selColumn tDemo (normFrame demoFrame) ((normFrame demoFrame).cols.find? qMin)) ∧
    (pick tDemo (normFrame demoFrame) (candUmid (normFrame demoFrame)) =
      selColumn tDemo (normFrame demoFrame) ((normFrame demoFrame).cols.find? qUmid)) ∧
    (pick tDemo (normFrame demoFrame) (candPrec (normFrame demoFrame)) =
      selColumn tDemo (normFrame demoFrame) ((normFrame demoFrame).cols.find? qPrec)) ∧
    (pick tDemo (normFrame demoFrame) (candVento (normFrame demoFrame)) =
      selColumn tDemo (normFrame demoFrame) ((normFrame demoFrame).cols.find? qVento)) ∧
    (pick tDemo (normFrame demoFrame) (candPress (normFrame demoFrame)) =
      selColumn tDemo (normFrame demoFrame) ((normFrame demoFrame).cols.find? qPress)) :=
  claim_C7 pDemo tDemo demoFrame (by decide)

/-! ## Claim C8 -/

/-- A character that `slugify` can emit: a lower-case ASCII letter, a
digit, or an underscore. -/
def goodChar (c : Char) : Bool :=
  (97 ≤ c.toNat && c.toNat ≤ 122) || (48 ≤ c.toNat && c.toNat ≤ 57) || c == '_'

/-- No two adjacent underscores. -/
def NoDouble (l : List Char) : Prop :=
  l.Chain' (fun a b => ¬(a = '_' ∧ b = '_'))

/-- Characters with equal codepoints are equal. -/
theorem char_eq_of_toNat {c d : Char} (h : c.toNat = d.toNat) : c = d := by
  cases c; cases d
  simp only [Char.toNat] at h
  congr 1
  exact UInt32.ext h

/-- The codepoint of `Char.ofNat` below the surrogate range. -/
theorem toNat_charOfNat {n : Nat} (h : n < 55296) : (Char.ofNat n).toNat = n := by
  unfold Char.ofNat
  rw [dif_pos (Or.inl h)]
  rfl

/-- `toLowerAscii` fixes everything that is not an upper-case ASCII
letter. -/
theorem toLowerAscii_of_not_upper {c : Char} (h : ¬(65 ≤ c.toNat ∧ c.toNat ≤ 90)) :
    toLowerAscii c = c := by
  unfold toLowerAscii
  rw [if_neg (by simpa using h)]

/-- `toLowerAscii` shifts an upper-case ASCII letter down by 32. -/
theorem toLowerAscii_upper {c : Char} (h1 : 65 ≤ c.toNat) (h2 : c.toNat ≤ 90) :
    (toLowerAscii c).toNat = c.toNat + 32 := by
  unfold toLowerAscii
  rw [if_pos (by simp [h1, h2])]
  exact toNat_charOfNat (by omega)

/-- Unpacking `goodChar`. -/
theorem goodChar_elim {c : Char} (h : goodChar c = true) :
    (97 ≤ c.toNat ∧ c.toNat ≤ 122) ∨ (48 ≤ c.toNat ∧ c.toNat ≤ 57) ∨ c = '_' := by
  simp only [goodChar, Bool.or_eq_true, Bool.and_eq_true, decide_eq_true_eq,
    beq_iff_eq] at h
  tauto

/-- Good characters are ASCII. -/
theorem goodChar_toNat {c : Char} (h : goodChar c = true) : c.toNat < 128 := by
  rcases goodChar_elim h with h | h | h
  · omega
  · omega
  · rw [h]; decide

/-- Good characters are not upper-case letters. -/
theorem goodChar_not_upper {c : Char} (h : goodChar c = true) :
    ¬(65 ≤ c.toNat ∧ c.toNat ≤ 90) := by
  rcases goodChar_elim h with h | h | h
  · omega
  · omega
  · rw [h]; decide

/-- Lower-casing an alphanumeric-or-underscore character yields a good
character. -/
theorem toLowerAscii_good {c : Char} (h : (isAlnumAscii c || c == '_') = true) :
    goodChar (toLowerAscii c) = true := by
  simp only [isAlnumAscii, Bool.or_eq_true, Bool.and_eq_true, decide_eq_true_eq,
    beq_iff_eq] at h
  simp only [goodChar, Bool.or_eq_true, Bool.and_eq_true, decide_eq_true_eq, beq_iff_eq]
  rcases h with ((h1 | h1) | h1) | h1
  · rw [toLowerAscii_of_not_upper (by omega)]
    exact Or.inl (Or.inl (by omega))
  · have ht := toLowerAscii_upper h1.1 h1.2
    exact Or.inl (Or.inl (by omega))
  · rw [toLowerAscii_of_not_upper (by omega)]
    exact Or.inl (Or.inr (by omega))
  · subst h1
    rw [toLowerAscii_of_not_upper (by decide)]
    exact Or.inr rfl

/-- Lower-casing never introduces an underscore. -/
theorem toLowerAscii_ne_und {c : Char} (h : c ≠ '_') : toLowerAscii c ≠ '_' := by
  by_cases hu : 65 ≤ c.toNat ∧ c.toNat ≤ 90
  · intro he
    have ht := toLowerAscii_upper hu.1 hu.2
    rw [he] at ht
    simp only [show ('_').toNat = 95 from rfl] at ht
    omega
  · rw [toLowerAscii_of_not_upper hu]
    exact h

/-- Lower-casing preserves being ASCII-alphanumeric. -/
theorem isAlnumAscii_toLower (c : Char) : isAlnumAscii (toLowerAscii c) = isAlnumAscii c := by
  by_cases hu : 65 ≤ c.toNat ∧ c.toNat ≤ 90
  · have ht := toLowerAscii_upper hu.1 hu.2
    simp only [isAlnumAscii, Bool.or_eq_true, Bool.and_eq_true, decide_eq_true_eq]
    rw [show ∀ b1 b2 : Bool, (b1 = b2) ↔ (b1 = true ↔ b2 = true) from by decide]
    simp only [Bool.or_eq_true, Bool.and_eq_true, decide_eq_true_eq]
    omega
  · rw [toLowerAscii_of_not_upper hu]

/-- Every character the collapse emits either satisfies `keep` or is the
underscore. -/
theorem collapseGo_chars (keep : Char → Bool) :
    ∀ (l : List Char) (flag : Bool) (c : Char), c ∈ collapseGo keep flag l →
      keep c = true ∨ c = '_' := by
  intro l
  induction l with
  | nil => intro flag c hc; simp [collapseGo] at hc
  | cons a rest ih =>
    intro flag c hc
    cases ha : keep a with
    | true =>
      rw [collapseGo, if_pos ha] at hc
      rcases List.mem_cons.mp hc with rfl | hc
      · exact Or.inl ha
      · exact ih false c hc
    | false =>
      rw [collapseGo, if_neg (by simp [ha])] at hc
      cases flag with
      | true =>
        rw [if_pos rfl] at hc
        exact ih true c hc
      | false =>
        rw [if_neg (by simp)] at hc
        rcases List.mem_cons.mp hc with rfl | hc
        · exact Or.inr rfl
        · exact ih true c hc

/-- In mid-run state the collapse never emits a leading underscore. -/
theorem collapseGo_head_true (keep : Char → Bool) (hk : keep '_' = false) :
    ∀ l : List Char, (collapseGo keep true l).head? ≠ some '_' := by
  intro l
  induction l with
  | nil => simp [collapseGo]
  | cons a rest ih =>
    cases ha : keep a with
    | true =>
      rw [collapseGo, if_pos ha]
      intro h
      simp only [List.head?_cons, Option.some.injEq] at h
      rw [h] at ha
      rw [hk] at ha
      exact Bool.noConfusion ha
    | false =>
      rw [collapseGo, if_neg (by simp [ha]), if_pos rfl]
      exact ih

/-- The collapse never emits two adjacent underscores. -/
theorem collapseGo_nodouble (keep : Char → Bool) (hk : keep '_' = false) :
    ∀ (l : List Char) (flag : Bool), NoDouble (collapseGo keep flag l) := by
  intro l
  induction l with
  | nil => intro flag; simp [collapseGo, NoDouble]
  | cons a rest ih =>
    intro flag
    cases ha : keep a with
    | true =>
      rw [NoDouble, collapseGo, if_pos ha, List.chain'_cons']
      refine ⟨?_, ih false⟩
      rintro b _ ⟨h1, _⟩
      rw [h1, hk] at ha
      exact Bool.noConfusion ha
    | false =>
      cases flag with
      | true =>
        rw [NoDouble, collapseGo, if_neg (by simp [ha]), if_pos rfl]
        exact ih true
      | false =>
        rw [NoDouble, collapseGo, if_neg (by simp [ha]), if_neg (by simp),
          List.chain'_cons']
        refine ⟨?_, ih true⟩
        rintro b hb ⟨_, h2⟩
        rw [h2] at hb
        exact collapseGo_head_true keep hk rest hb

/-- A list of kept-or-underscore characters with no double underscore
and no trailing underscore is a fixed point of the collapse (and also
from mid-run state when it has no leading underscore). -/
theorem collapseGo_fix (keep : Char → Bool) :
    ∀ l : List Char, (∀ c ∈ l, keep c = true ∨ c = '_') → NoDouble l →
      l.getLast? ≠ some '_' →
      collapseGo keep false l = l ∧
        (l.head? ≠ some '_' → collapseGo keep true l = l) := by
  intro l
  induction l with
  | nil => exact fun _ _ _ => ⟨rfl, fun _ => rfl⟩
  | cons a rest ih =>
    intro hchars hnd hlast
    have hchars' : ∀ c ∈ rest, keep c = true ∨ c = '_' :=
      fun c hc => hchars c (List.mem_cons_of_mem _ hc)
    have hnd' : NoDouble rest := List.Chain'.tail hnd
    have hlast' : rest.getLast? ≠ some '_' := by
      cases rest with
      | nil => simp
      | cons b rest2 => rw [List.getLast?_cons_cons] at hlast; exact hlast
    obtain ⟨ih1, ih2⟩ := ih hchars' hnd' hlast'
    cases ha : keep a with
    | true =>
      constructor
      · rw [collapseGo, if_pos ha, ih1]
      · intro _
        rw [collapseGo, if_pos ha, ih1]
    | false =>
      have haund : a = '_' := by
        rcases hchars a (List.mem_cons_self a rest) with h | h
        · rw [ha] at h; exact Bool.noConfusion h
        · exact h
      have hh : rest.head? ≠ some '_' := by
        intro hsome
        have hch := (List.chain'_cons'.mp
          (hnd : List.Chain' (fun a b => ¬(a = '_' ∧ b = '_')) (a :: rest))).1
        exact hch '_' (by rw [hsome]; rfl) ⟨haund, rfl⟩
      constructor
      · rw [collapseGo, if_neg (by simp [ha]), if_neg (by simp), ih2 hh, haund]
      · intro hhead
        exact absurd (by rw [haund]; rfl) hhead

/-- ASCII characters are fixed points of the character fold. -/
theorem foldChar_ascii {c : Char} (h : c.toNat < 128) : foldChar c = [c] := by
  unfold foldChar
  rw [if_pos h]

/-- An all-ASCII list is a fixed point of the fold. -/
theorem asciiFold_fix : ∀ l : List Char, (∀ c ∈ l, c.toNat < 128) → asciiFold l = l := by
  intro l
  induction l with
  | nil => intro _; rfl
  | cons a rest ih =>
    intro h
    show (foldChar a ++ (rest.map foldChar).flatten : List Char) = a :: rest
    rw [foldChar_ascii (h a (List.mem_cons_self a rest))]
    have := ih (fun c hc => h c (List.mem_cons_of_mem _ hc))
    unfold asciiFold at this
    rw [this]
    rfl

/-- The head surviving a `dropWhile` does not satisfy the dropped
predicate. -/
theorem head?_dropWhile_not (p : Char → Bool) :
    ∀ l : List Char, ∀ c, (l.dropWhile p).head? = some c → p c = false := by
  intro l
  induction l with
  | nil => intro c hc; simp at hc
  | cons a rest ih =>
    intro c hc
    rw [List.dropWhile_cons] at hc
    by_cases ha : p a
    · rw [if_pos ha] at hc
      exact ih c hc
    · rw [if_neg ha] at hc
      simp only [List.head?_cons, Option.some.injEq] at hc
      subst hc
      exact Bool.not_eq_true _ ▸ (by simpa using ha)

/-- `dropWhile` fixes a list whose head does not satisfy the predicate. -/
theorem dropWhile_fix {p : Char → Bool} {l : List Char}
    (h : ∀ c, l.head? = some c → p c = false) : l.dropWhile p = l := by
  cases l with
  | nil => rfl
  | cons a rest =>
    rw [List.dropWhile_cons, if_neg (by simp [h a rfl])]

/-- A prefix relation: the strip of trailing underscores is a prefix. -/
theorem dropEnds_isPrefix (l : List Char) :
    ((l.dropWhile (fun c => c == '_')).reverse.dropWhile (fun c => c == '_')).reverse.IsPrefix
      (l.dropWhile (fun c => c == '_')) := by
  have hsuf := List.dropWhile_suffix (l := (l.dropWhile (fun c => c == '_')).reverse)
    (fun c => c == '_')
  obtain ⟨t, ht⟩ := hsuf
  exact ⟨t.reverse, by rw [← List.reverse_append, ht, List.reverse_reverse]⟩

/-- The head of `dropEnds` is never an underscore. -/
theorem dropEnds_head (l : List Char) : ∀ c, (dropEnds l).head? = some c → c ≠ '_' := by
  intro c hc
  obtain ⟨t, ht⟩ := dropEnds_isPrefix l
  have hl : (l.dropWhile (fun c => c == '_')).head? = some c := by
    rw [← ht]
    unfold dropEnds at hc
    cases hcase : ((l.dropWhile (fun c => c == '_')).reverse.dropWhile
        (fun c => c == '_')).reverse with
    | nil => rw [hcase] at hc; simp at hc
    | cons b rest =>
      rw [hcase] at hc
      simp only [List.head?_cons, Option.some.injEq] at hc
      subst hc
      rfl
  have := head?_dropWhile_not (fun c => c == '_') l c hl
  simpa using this

/-- The last character of `dropEnds` is never an underscore. -/
theorem dropEnds_last (l : List Char) : ∀ c, (dropEnds l).getLast? = some c → c ≠ '_' := by
  intro c hc
  unfold dropEnds at hc
  rw [List.getLast?_reverse] at hc
  have := head?_dropWhile_not (fun c => c == '_') (l.dropWhile (fun c => c == '_')).reverse c hc
  simpa using this

/-- `dropEnds` only removes characters of the list. -/
theorem dropEnds_subset (l : List Char) : ∀ c ∈ dropEnds l, c ∈ l := by
  intro c hc
  unfold dropEnds at hc
  rw [List.mem_reverse] at hc
  have h1 := (List.dropWhile_sublist (l := (l.dropWhile (fun c => c == '_')).reverse)
    (fun c => c == '_')).mem hc
  rw [List.mem_reverse] at h1
  exact (List.dropWhile_sublist (fun c => c == '_')).mem h1

/-- `dropEnds` preserves the no-double-underscore property. -/
theorem dropEnds_nodouble {l : List Char} (h : NoDouble l) : NoDouble (dropEnds l) := by
  have h1 : NoDouble (l.dropWhile (fun c => c == '_')) :=
    List.Chain'.suffix h (List.dropWhile_suffix _)
  have h2 : NoDouble (l.dropWhile (fun c => c == '_')).reverse := by
    rw [NoDouble, List.chain'_reverse]
    exact List.Chain'.imp (fun a b hab => by rw [Function.flip_def]; tauto) h1
  have h3 : NoDouble ((l.dropWhile (fun c => c == '_')).reverse.dropWhile
      (fun c => c == '_')) :=
    List.Chain'.suffix h2 (List.dropWhile_suffix _)
  rw [NoDouble, dropEnds, List.chain'_reverse]
  exact List.Chain'.imp (fun a b hab => by rw [Function.flip_def]; tauto) h3

/-- `dropEnds` fixes a list with no underscore at either end. -/
theorem dropEnds_fix {l : List Char} (hh : ∀ c, l.head? = some c → c ≠ '_')
    (hl : ∀ c, l.getLast? = some c → c ≠ '_') : dropEnds l = l := by
  unfold dropEnds
  have h1 : l.dropWhile (fun c => c == '_') = l :=
    dropWhile_fix (fun c hc => by simpa using hh c hc)
  rw [h1]
  have h2 : l.reverse.dropWhile (fun c => c == '_') = l.reverse :=
    dropWhile_fix (fun c hc => by
      rw [List.head?_reverse] at hc
      simpa using hl c hc)
  rw [h2, List.reverse_reverse]

/-- Every character of a slug is good. -/
theorem slugChars_good (l : List Char) : ∀ c ∈ slugChars l, goodChar c = true := by
  intro c hc
  unfold slugChars at hc
  obtain ⟨d, hd, rfl⟩ := List.mem_map.mp hc
  have hd' := dropEnds_subset _ d hd
  have hord := collapseGo_chars isAlnumAscii (asciiFold l) false d hd'
  apply toLowerAscii_good
  rcases hord with h | h
  · simp [h]
  · simp [h]

/-- A slug has no two adjacent underscores. -/
theorem slugChars_nodouble (l : List Char) : NoDouble (slugChars l) := by
  have h1 : NoDouble (dropEnds (collapseGo isAlnumAscii false (asciiFold l))) :=
    dropEnds_nodouble (collapseGo_nodouble isAlnumAscii rfl (asciiFold l) false)
  rw [NoDouble, slugChars, List.chain'_map]
  refine List.Chain'.imp ?_ h1
  rintro a b hab ⟨ha, hb⟩
  by_cases haund : a = '_'
  · by_cases hbund : b = '_'
    · exact hab ⟨haund, hbund⟩
    · exact toLowerAscii_ne_und hbund hb
  · exact toLowerAscii_ne_und haund ha

/-- A slug never starts with an underscore. -/
theorem slugChars_head (l : List Char) : ∀ c, (slugChars l).head? = some c → c ≠ '_' := by
  intro c hc
  rw [slugChars, List.head?_map] at hc
  cases hm : (dropEnds (collapseGo isAlnumAscii false (asciiFold l))).head? with
  | none => rw [hm] at hc; exact Option.noConfusion hc
  | some d =>
    rw [hm] at hc
    simp only [Option.map_some', Option.some.injEq] at hc
    subst hc
    exact toLowerAscii_ne_und (dropEnds_head _ d hm)

/-- A slug never ends with an underscore. -/
theorem slugChars_last (l : List Char) : ∀ c, (slugChars l).getLast? = some c → c ≠ '_' := by
  intro c hc
  rw [slugChars, List.getLast?_map] at hc
  cases hm : (dropEnds (collapseGo isAlnumAscii false (asciiFold l))).getLast? with
  | none => rw [hm] at hc; exact Option.noConfusion hc
  | some d =>
    rw [hm] at hc
    simp only [Option.map_some', Option.some.injEq] at hc
    subst hc
    exact toLowerAscii_ne_und (dropEnds_last _ d hm)

/-- A function that fixes every member fixes the mapped list. -/
theorem map_fix_of_mem {f : Char → Char} :
    ∀ l : List Char, (∀ c ∈ l, f c = c) → l.map f = l := by
  intro l
  induction l with
  | nil => intro _; rfl
  | cons a rest ih =>
    intro h
    rw [List.map_cons, h a (List.mem_cons_self a rest),
      ih (fun c hc => h c (List.mem_cons_of_mem _ hc))]

/-- Idempotence of the slug computation on character lists. -/
theorem slugChars_idem (l : List Char) : slugChars (slugChars l) = slugChars l := by
  have hgood := slugChars_good l
  have hchars : ∀ c ∈ slugChars l, isAlnumAscii c = true ∨ c = '_' := by
    intro c hc
    rcases goodChar_elim (hgood c hc) with h | h | h
    · left; simp only [isAlnumAscii, Bool.or_eq_true, Bool.and_eq_true, decide_eq_true_eq]
      omega
    · left; simp only [isAlnumAscii, Bool.or_eq_true, Bool.and_eq_true, decide_eq_true_eq]
      omega
    · right; exact h
  have hascii : ∀ c ∈ slugChars l, c.toNat < 128 :=
    fun c hc => goodChar_toNat (hgood c hc)
  have hlastne : (slugChars l).getLast? ≠ some '_' := by
    intro heq
    exact slugChars_last l '_' heq rfl
  have hheadne : (slugChars l).head? ≠ some '_' := by
    intro heq
    exact slugChars_head l '_' heq rfl
  show (dropEnds (collapseGo isAlnumAscii false (asciiFold (slugChars l)))).map
      toLowerAscii = slugChars l
  rw [asciiFold_fix _ hascii,
    (collapseGo_fix isAlnumAscii (slugChars l) hchars (slugChars_nodouble l) hlastne).1,
    dropEnds_fix (slugChars_head l) (slugChars_last l)]
  exact map_fix_of_mem _ (fun c hc =>
    toLowerAscii_of_not_upper (goodChar_not_upper (hgood c hc)))

/-- The collapse preserves the kept characters in order
(the emitted underscores are filtered away because `keep '_' = false`). -/
theorem filter_collapseGo (keep : Char → Bool) (hk : keep '_' = false) :
    ∀ (l : List Char) (flag : Bool),
      (collapseGo keep flag l).filter keep = l.filter keep := by
  intro l
  induction l with
  | nil => intro flag; rfl
  | cons a rest ih =>
    intro flag
    cases ha : keep a with
    | true =>
      rw [collapseGo, if_pos ha, List.filter_cons, if_pos (by simp [ha]),
        List.filter_cons, if_pos (by simp [ha]), ih false]
    | false =>
      cases flag with
      | true =>
        rw [collapseGo, if_neg (by simp [ha]), if_pos rfl, List.filter_cons,
          if_neg (by simp [ha]), ih true]
      | false =>
        rw [collapseGo, if_neg (by simp [ha]), if_neg (by simp), List.filter_cons,
          if_neg (by simp [hk]), List.filter_cons, if_neg (by simp [ha]), ih true]

/-- Dropping leading underscores does not change the alphanumeric
content. -/
theorem filter_dropWhile_und :
    ∀ l : List Char, (l.dropWhile (fun c => c == '_')).filter isAlnumAscii =
      l.filter isAlnumAscii := by
  intro l
  induction l with
  | nil => rfl
  | cons a rest ih =>
    by_cases ha : a = '_'
    · subst ha
      rw [List.dropWhile_cons, if_pos (by simp), List.filter_cons, if_neg (by decide), ih]
    · rw [List.dropWhile_cons, if_neg (by simpa using ha)]

/-- Stripping underscores at both ends does not change the alphanumeric
content. -/
theorem filter_dropEnds (l : List Char) :
    (dropEnds l).filter isAlnumAscii = l.filter isAlnumAscii := by
  unfold dropEnds
  rw [show ∀ m : List Char, m.reverse.filter isAlnumAscii =
      (m.filter isAlnumAscii).reverse from fun m => (List.filter_reverse ..),
    filter_dropWhile_und, ← List.filter_reverse, List.reverse_reverse,
    filter_dropWhile_und]

/-- Lower-casing commutes with the alphanumeric filter. -/
theorem filter_map_lower (l : List Char) :
    (l.map toLowerAscii).filter isAlnumAscii =
      (l.filter isAlnumAscii).map toLowerAscii := by
  rw [List.filter_map]
  congr 1
  exact List.filter_congr (fun c _ => by
    show isAlnumAscii (toLowerAscii c) = isAlnumAscii c
    exact isAlnumAscii_toLower c)

/-- Claim C8 (amended): `slugify "São Luiz do Paraitinga"` is
`"sao_luiz_do_paraitinga"`; `slugify` is idempotent on every string; for
every string the result has no leading, trailing or doubled underscore
and consists solely of lower-case ASCII alphanumerics and underscores;
and for every ASCII string the alphanumeric content survives unchanged
(lower-cased) — so each maximal non-alphanumeric run appears as at most
one inner underscore.  (For non-ASCII input a run may instead disappear,
because the ASCII fold drops characters with no ASCII decomposition —
the content of the counterexample.) -/
theorem claim_C8 :
    slugify "São Luiz do Paraitinga" = "sao_luiz_do_paraitinga" ∧
    (∀ s : String, slugify (slugify s) = slugify s) ∧
    (∀ s : String,
      (∀ c, (slugify s).data.head? = some c → c ≠ '_') ∧
      (∀ c, (slugify s).data.getLast? = some c → c ≠ '_') ∧
      NoDouble (slugify s).data ∧
      ∀ c ∈ (slugify s).data, goodChar c = true) ∧
    (∀ s : String, (∀ c ∈ s.data, c.toNat < 128) →
      (slugify s).data.filter isAlnumAscii =
        (s.data.filter isAlnumAscii).map toLowerAscii) := by
  refine ⟨by decide, ?_, ?_, ?_⟩
  · intro s
    show String.mk (slugChars (String.mk (slugChars s.data)).data) = _
    rw [show (String.mk (slugChars s.data)).data = slugChars s.data from rfl,
      slugChars_idem]
    rfl
  · intro s
    exact ⟨slugChars_head s.data, slugChars_last s.data, slugChars_nodouble s.data,
      slugChars_good s.data⟩
  · intro s hascii
    show (slugChars s.data).filter isAlnumAscii = _
    unfold slugChars
    rw [asciiFold_fix _ hascii, filter_map_lower, filter_dropEnds,
      filter_collapseGo isAlnumAscii rfl]

/-- Witness for C8's ASCII-content part at a concrete ASCII string. -/
theorem claim_C8_witness :
    (∀ c ∈ ("a! b--C".data : List Char), c.toNat < 128) ∧
    (slugify "a! b--C").data.filter isAlnumAscii =
      ("a! b--C".data.filter isAlnumAscii).map toLowerAscii ∧
    slugify "a! b--C" = "a_b_c" :=
  ⟨by decide, claim_C8.2.2.2 "a! b--C" (by decide), by decide⟩

/-- Counterexample to C8 as stated: in `"a€b"` the maximal
non-alphanumeric run `"€"` is not collapsed to an underscore — the euro
sign has no ASCII decomposition and is dropped by the fold, so the slug
is `"ab"`, not the `"a_b"` the claim requires. -/
theorem claim_C8_counterexample :
    slugify "a€b" = "ab" ∧ slugify "a€b" ≠ "a_b" :=
  ⟨by decide, by decide⟩
